import Mathlib

/-!
Verification of `typhonjs-node-utils/dynamic-reducer` (`DynArrayReducer`).

The public facade `src/array/DynArrayReducer.ts` is embedded directly.
The indexing engine (`Indexer`, `AdapterFilters`, `AdapterSort`) is not part
of the provided sources, so its recompute algorithm is modelled from the
specification (spec section 4.4): enumerate backing positions `0..n-1`,
retain a position iff every active filter accepts the element there, and
stable-sort the retained positions by comparing the elements when a
comparator is active.

Arrays are lists; element type `T` carries an `Inhabited` instance so that
JavaScript indexing `array[i]` becomes `List.getD`.  Where object identity
matters (`setData` in-place mode), the backing slot is modelled as a small
heap of array ids.
-/

namespace DynReducer

/-- Modelled from the spec: filter conjunction of `AdapterFilters` —
an element is visible iff every active filter predicate returns true for it
(spec section 4.2). -/
def accepts {T : Type} (fs : List (T → Bool)) (x : T) : Bool :=
  fs.all (fun f => f x)

/-- Modelled from the spec: the retention pass of the Indexer rebuild —
enumerate backing positions `0..n-1` in original order and retain a
position iff all active filters accept the element at that position
(spec section 4.4). -/
def retained {T : Type} [Inhabited T] (arr : List T) (fs : List (T → Bool)) : List Nat :=
  (List.range arr.length).filter (fun i => accepts fs (arr.getD i default))

/-- Boolean "compares before-or-equal" order on backing positions induced by
a comparator on elements, used by the Indexer sort pass. -/
def posLE {T : Type} [Inhabited T] (arr : List T) (c : T → T → Int) (i j : Nat) : Bool :=
  decide (c (arr.getD i default) (arr.getD j default) ≤ 0)

/-- Modelled from the spec: the Indexer rebuild (`Indexer` is not under the
provided sources).  Retained positions, stable-sorted by comparing the
elements at those positions when a comparator is active (spec section 4.4). -/
def recompute {T : Type} [Inhabited T] (arr : List T) (fs : List (T → Bool))
    (cmp : Option (T → T → Int)) : List Nat :=
  match cmp with
  | none => retained arr fs
  | some c => (retained arr fs).mergeSort (posLE arr c)

/-- Modelled from the spec: the virtual ordering is active whenever at least
one filter or a comparator is registered (spec section 3, Virtual Ordering). -/
def isActive {T : Type} (fs : List (T → Bool)) (cmp : Option (T → T → Int)) : Bool :=
  !fs.isEmpty || cmp.isSome

/-- In a strictly increasing list, two members `p < q` occur in that order:
`[p, q]` is a sublist. -/
theorem pair_sublist_of_pairwise_lt {l : List Nat} (hl : l.Pairwise (· < ·))
    {p q : Nat} (hp : p ∈ l) (hq : q ∈ l) (hpq : p < q) : List.Sublist [p, q] l := by
  induction l with
  | nil => cases hp
  | cons a t ih =>
    rcases List.mem_cons.mp hp with rfl | hp'
    · rcases List.mem_cons.mp hq with rfl | hq'
      · exact absurd hpq (lt_irrefl _)
      · exact (List.singleton_sublist.mpr hq').cons₂ _
    · rcases List.mem_cons.mp hq with rfl | hq'
      · have := (List.pairwise_cons.mp hl).1 p hp'
        omega
      · exact (ih (List.pairwise_cons.mp hl).2 hp' hq').cons _

/-- The retained positions form a strictly increasing list. -/
theorem retained_pairwise_lt {T : Type} [Inhabited T] (arr : List T) (fs : List (T → Bool)) :
    (retained arr fs).Pairwise (· < ·) :=
  List.Pairwise.sublist (List.filter_sublist _) (List.pairwise_lt_range _)

/-- Membership in the retained list means: a valid backing position whose
element passes every filter. -/
theorem mem_retained {T : Type} [Inhabited T] (arr : List T) (fs : List (T → Bool))
    (i : Nat) : i ∈ retained arr fs ↔ i < arr.length ∧ accepts fs (arr.getD i default) = true := by
  simp [retained, List.mem_filter, List.mem_range]

/-- C1: a recompute enumerates backing positions 0..n-1 in original order and
retains a position iff every active filter accepts the element at that
position (membership characterisation, and without a comparator the ordering
is exactly the filtered enumeration); with an active comparator the retained
positions are stable-sorted by comparing the elements at those positions, so
two retained positions `p < q` whose elements compare equal keep their
original relative order. -/
theorem recompute_filters_and_stable {T : Type} [Inhabited T]
    (arr : List T) (fs : List (T → Bool)) (c : T → T → Int)
    (htrans : ∀ x y z : T, c x y ≤ 0 → c y z ≤ 0 → c x z ≤ 0)
    (htotal : ∀ x y : T, c x y ≤ 0 ∨ c y x ≤ 0)
    (p q : Nat) (hpq : p < q)
    (hp : p ∈ retained arr fs) (hq : q ∈ retained arr fs)
    (heq : c (arr.getD p default) (arr.getD q default) = 0) :
    (∀ i, i ∈ recompute arr fs (some c) ↔
        i < arr.length ∧ accepts fs (arr.getD i default) = true) ∧
    (recompute arr fs none =
        (List.range arr.length).filter (fun i => accepts fs (arr.getD i default))) ∧
    List.Sublist [p, q] (recompute arr fs (some c)) := by
  refine ⟨?_, rfl, ?_⟩
  · intro i
    rw [recompute, List.mem_mergeSort]
    exact mem_retained arr fs i
  · have hTrans : ∀ a b d : Nat, posLE arr c a b → posLE arr c b d → posLE arr c a d := by
      intro a b d h1 h2
      have h1' := of_decide_eq_true h1
      have h2' := of_decide_eq_true h2
      exact decide_eq_true (htrans _ _ _ h1' h2')
    have hTotal : ∀ a b : Nat, posLE arr c a b || posLE arr c b a := by
      intro a b
      rw [Bool.or_eq_true]
      rcases htotal (arr.getD a default) (arr.getD b default) with h | h
      · exact Or.inl (decide_eq_true h)
      · exact Or.inr (decide_eq_true h)
    have hab : posLE arr c p q := decide_eq_true (le_of_eq heq)
    have hsub : List.Sublist [p, q] (retained arr fs) :=
      pair_sublist_of_pairwise_lt (retained_pairwise_lt arr fs) hp hq hpq
    exact List.pair_sublist_mergeSort hTrans hTotal hab hsub

/-- Witness for C1 at a concrete input: data `[5, 2, 8, 2]`, one filter
keeping even elements (positions 1, 2, 3 retained), constant-equal
comparator; positions 1 and 3 hold equal-comparing elements and stay in
original relative order. -/
theorem recompute_filters_and_stable_witness :
    (∀ i, i ∈ recompute [5, 2, 8, 2] [fun x => x % 2 == 0] (some (fun _ _ => (0 : Int))) ↔
        i < (([5, 2, 8, 2] : List Nat)).length ∧
          accepts [fun x => x % 2 == 0] (([5, 2, 8, 2] : List Nat).getD i default) = true) ∧
    (recompute [5, 2, 8, 2] [fun x => x % 2 == 0] none =
        (List.range (([5, 2, 8, 2] : List Nat)).length).filter
          (fun i => accepts [fun x => x % 2 == 0] (([5, 2, 8, 2] : List Nat).getD i default))) ∧
    List.Sublist [1, 3] (recompute [5, 2, 8, 2] [fun x => x % 2 == 0]
      (some (fun _ _ => (0 : Int)))) :=
  recompute_filters_and_stable [5, 2, 8, 2] [fun x => x % 2 == 0] (fun _ _ => (0 : Int))
    (fun _ _ _ _ _ => le_refl 0) (fun _ _ => Or.inl (le_refl 0)) 1 3 (by decide)
    (by decide) (by decide) rfl

/-- Embedding of `DynArrayReducer[Symbol.iterator]` (DynArrayReducer.ts
lines 289-310): with a `null` or empty backing array nothing is yielded; with
an active index, `array[entry]` is yielded for each entry of the virtual
ordering (the Indexer iterates the stored ordering forward, or in reverse
when the reversed flag is set — spec section 4.4); with an inactive index the
backing array is traversed directly, reversed when the flag is set. -/
def iterate {T : Type} [Inhabited T] (arr : Option (List T)) (fs : List (T → Bool))
    (cmp : Option (T → T → Int)) (rev : Bool) : List T :=
  match arr with
  | none => []
  | some a =>
    if a.length = 0 then []
    else if isActive fs cmp then
      (if rev then (recompute a fs cmp).reverse else recompute a fs cmp).map
        (fun i => a.getD i default)
    else if rev then a.reverse else a

/-- Embedding of the `length` getter (DynArrayReducer.ts lines 166-171):
the virtual ordering length when the index is active, else the backing array
length, and 0 when the backing store is absent. -/
def lengthGet {T : Type} [Inhabited T] (arr : Option (List T)) (fs : List (T → Bool))
    (cmp : Option (T → T → Int)) : Nat :=
  if isActive fs cmp then (recompute (arr.getD []) fs cmp).length
  else
    match arr with
    | some a => a.length
    | none => 0

/-- The virtual ordering over an empty backing array is empty. -/
theorem recompute_nil {T : Type} [Inhabited T] (fs : List (T → Bool))
    (cmp : Option (T → T → Int)) : recompute ([] : List T) fs cmp = [] := by
  cases cmp with
  | none => rfl
  | some c => simp [recompute, retained]

/-- C5: the `length` getter returns the virtual ordering's length when the
index is active, otherwise the backing array's length, and 0 when the backing
store is absent; consequently it always counts exactly the elements produced
by iteration. -/
theorem length_getter_spec {T : Type} [Inhabited T] (arr : Option (List T))
    (fs : List (T → Bool)) (cmp : Option (T → T → Int)) :
    (isActive fs cmp = true →
        lengthGet arr fs cmp = (recompute (arr.getD []) fs cmp).length) ∧
    (isActive fs cmp = false → ∀ a, arr = some a → lengthGet arr fs cmp = a.length) ∧
    (isActive fs cmp = false → arr = none → lengthGet arr fs cmp = 0) ∧
    (∀ rev, lengthGet arr fs cmp = (iterate arr fs cmp rev).length) := by
  refine ⟨?_, ?_, ?_, ?_⟩
  · intro h
    simp [lengthGet, h]
  · intro h a ha
    subst ha
    simp [lengthGet, h]
  · intro h ha
    subst ha
    simp [lengthGet, h]
  · intro rev
    cases arr with
    | none =>
      cases hact : isActive fs cmp <;> simp [lengthGet, iterate, hact, recompute_nil]
    | some a =>
      by_cases hlen : a.length = 0
      · have ha : a = [] := List.length_eq_zero.mp hlen
        subst ha
        cases hact : isActive fs cmp <;> simp [lengthGet, iterate, hact, recompute_nil]
      · cases hact : isActive fs cmp with
        | false => cases rev <;> simp [lengthGet, iterate, hact, hlen]
        | true => cases rev <;> simp [lengthGet, iterate, hact, hlen]

/-- Witness for C5 at a concrete input: one filter active over `[1, 2, 3, 4]`,
so the length is the virtual ordering's length. -/
theorem length_getter_spec_witness :
    lengthGet (some [1, 2, 3, 4]) [fun x => x % 2 == 0] none =
      (recompute (((some [1, 2, 3, 4] : Option (List Nat))).getD [])
        [fun x => x % 2 == 0] none).length :=
  (length_getter_spec (some [1, 2, 3, 4]) [fun x => x % 2 == 0] none).1 rfl

/-- C6: with an inactive index (no filters, no comparator), iteration yields
exactly the backing array in storage order when the reversed flag is false,
its exact reverse when the flag is true, and the view's length equals the
backing array's length. -/
theorem inactive_iteration_spec {T : Type} [Inhabited T] (arr : Option (List T))
    (fs : List (T → Bool)) (cmp : Option (T → T → Int)) (a : List T)
    (hact : isActive fs cmp = false) (ha : arr = some a) :
    iterate arr fs cmp false = a ∧
    iterate arr fs cmp true = a.reverse ∧
    lengthGet arr fs cmp = a.length := by
  subst ha
  by_cases hlen : a.length = 0
  · have hnil : a = [] := List.length_eq_zero.mp hlen
    subst hnil
    simp [iterate, lengthGet, hact]
  · simp [iterate, lengthGet, hact, hlen]

/-- Witness for C6 at a concrete input: no filters and no comparator over
`[7, 8, 9]`. -/
theorem inactive_iteration_spec_witness :
    iterate (some [7, 8, 9]) ([] : List (Nat → Bool)) none false = [7, 8, 9] ∧
    iterate (some [7, 8, 9]) ([] : List (Nat → Bool)) none true = ([7, 8, 9] : List Nat).reverse ∧
    lengthGet (some [7, 8, 9]) ([] : List (Nat → Bool)) none = ([7, 8, 9] : List Nat).length :=
  inactive_iteration_spec (some [7, 8, 9]) [] none [7, 8, 9] rfl rfl

/-- C7: the reversed flag only flips traversal direction — iteration with
`reversed = true` yields exactly the reverse of iteration with
`reversed = false`, and the set of visible elements is unchanged (the virtual
ordering itself is computed without consulting the flag). -/
theorem reversed_is_order_flip {T : Type} [Inhabited T] (arr : Option (List T))
    (fs : List (T → Bool)) (cmp : Option (T → T → Int)) :
    iterate arr fs cmp true = (iterate arr fs cmp false).reverse ∧
    (∀ rev x, x ∈ iterate arr fs cmp rev ↔ x ∈ iterate arr fs cmp false) := by
  have hrev : iterate arr fs cmp true = (iterate arr fs cmp false).reverse := by
    cases arr with
    | none => rfl
    | some a =>
      by_cases hlen : a.length = 0
      · simp [iterate, hlen]
      · cases hact : isActive fs cmp with
        | false => simp [iterate, hlen, hact]
        | true => simp [iterate, hlen, hact, List.map_reverse]
  refine ⟨hrev, ?_⟩
  intro rev x
  cases rev with
  | false => exact Iff.rfl
  | true => rw [hrev]; exact List.mem_reverse

/-- The backing-store slot `#array` together with a heap of array contents by
id, so that object identity of arrays is observable (needed by `setData`'s
in-place mode). `slot = none` models `this.#array[0] === null`. -/
structure Store (T : Type) where
  slot : Option Nat
  heap : Nat → List T
  next : Nat

/-- Pointwise heap update. -/
def hupd {T : Type} (h : Nat → List T) (n : Nat) (xs : List T) : Nat → List T :=
  fun m => if m = n then xs else h m

/-- The `data` argument of `setData` after the iterability check: the null
"no data" marker, a direct array passed by reference, or a non-array
iterable whose elements are copied. -/
inductive SetArg (T : Type) where
  | isNull
  | byRef (id : Nat)
  | byIter (xs : List T)

/-- The branch of `setData` taken when the store holds no array or
`replace` is true (DynArrayReducer.ts lines 228-234): a direct array is
installed by reference, a non-array iterable is copied into a fresh array,
and `null` data leaves the slot untouched (the `if (data)` guard skips the
assignment). -/
def applyReplace {T : Type} (st : Store T) (d : SetArg T) : Store T :=
  match d with
  | .isNull => st
  | .byRef j => { st with slot := some j }
  | .byIter xs => { slot := some st.next, heap := hupd st.heap st.next xs, next := st.next + 1 }

/-- Embedding of `DynArrayReducer.setData` after validation
(DynArrayReducer.ts lines 224-249).  When the slot holds an array and
`replace` is false, in-place mode truncates that array to length 0 and pushes
the incoming elements, keeping its identity, or clears the slot to `null`
when data is the null marker.  Passing the installed array itself re-reads it
after truncation, so the contents become empty. -/
def setDataFn {T : Type} (st : Store T) (d : SetArg T) (replace : Bool) : Store T :=
  match st.slot with
  | none => applyReplace st d
  | some id =>
    if replace then applyReplace st d
    else
      match d with
      | .isNull => { st with slot := none }
      | .byRef j => { st with heap := hupd st.heap id (if j = id then [] else st.heap j) }
      | .byIter xs => { st with heap := hupd st.heap id xs }

/-- Concrete store used as the C2 counterexample: an array with id 0 and
contents `[1, 2]` is installed. -/
def exStore : Store Nat :=
  { slot := some 0, heap := fun _ => [1, 2], next := 1 }

/-- C2 counterexample: with an array installed, `setData(null, true)` takes
the replacement branch, whose `if (data)` guard skips the assignment — the
slot keeps the old array instead of being cleared to absent as the claim
states. -/
theorem setData_replace_null_counterexample :
    ¬ ((setDataFn exStore SetArg.isNull true).slot = none) := by
  simp [setDataFn, exStore, applyReplace]

/-- C2 amended: when the current store holds no array or `replace` is true,
`setData` installs a direct array by reference and copies a non-array
iterable into a fresh array; the null "no data" marker leaves the store
completely unchanged in this branch (clearing to absent happens only in
in-place mode). -/
theorem setData_replace_branch {T : Type} (st : Store T) (r : Bool)
    (h : st.slot = none ∨ r = true) :
    (∀ id, setDataFn st (.byRef id) r =
        { st with slot := some id }) ∧
    (∀ xs, setDataFn st (.byIter xs) r =
        { slot := some st.next, heap := hupd st.heap st.next xs, next := st.next + 1 }) ∧
    setDataFn st .isNull r = st := by
  rcases h with h | h
  · refine ⟨?_, ?_, ?_⟩ <;> simp [setDataFn, h, applyReplace]
  · subst h
    cases hs : st.slot with
    | none => refine ⟨?_, ?_, ?_⟩ <;> simp [setDataFn, hs, applyReplace]
    | some id => refine ⟨?_, ?_, ?_⟩ <;> simp [setDataFn, hs, applyReplace]

/-- Witness for C2 (amended) at a concrete input: replacement requested on a
store holding array id 0. -/
theorem setData_replace_branch_witness :
    (∀ id, setDataFn exStore (.byRef id) true = { exStore with slot := some id }) ∧
    (∀ xs, setDataFn exStore (.byIter xs) true =
        { slot := some exStore.next, heap := hupd exStore.heap exStore.next xs,
          next := exStore.next + 1 }) ∧
    setDataFn exStore .isNull true = exStore :=
  setData_replace_branch exStore true (Or.inr rfl)

/-- C4: with array id installed, `setData(newItems, false)` mutates that very
array in place (same identity in the slot, contents replaced by the incoming
elements — whether copied from an iterable or read out of another array),
while `setData(newItems, true)` leaves the originally held array's contents
untouched. -/
theorem setData_inplace_identity {T : Type} (st : Store T) (id : Nat)
    (hid : st.slot = some id) (hwf : id < st.next) (xs : List T) :
    ((setDataFn st (.byIter xs) false).slot = some id ∧
      (setDataFn st (.byIter xs) false).heap id = xs) ∧
    ((setDataFn st (.byIter xs) true).heap id = st.heap id ∧
      (setDataFn st (.byIter xs) true).slot = some st.next) ∧
    (∀ j, j ≠ id →
        (setDataFn st (.byRef j) false).slot = some id ∧
        (setDataFn st (.byRef j) false).heap id = st.heap j) ∧
    (∀ j, (setDataFn st (.byRef j) true).heap id = st.heap id) := by
  have hne : id ≠ st.next := Nat.ne_of_lt hwf
  refine ⟨⟨?_, ?_⟩, ⟨?_, ?_⟩, ?_, ?_⟩
  · simp [setDataFn, hid]
  · simp [setDataFn, hid, hupd]
  · simp [setDataFn, hid, applyReplace, hupd, hne]
  · simp [setDataFn, hid, applyReplace]
  · intro j hj
    constructor
    · simp [setDataFn, hid]
    · simp [setDataFn, hid, hupd, hj]
  · intro j
    simp [setDataFn, hid, applyReplace]

/-- Witness for C4 at a concrete input: store `exStore` (array id 0, contents
`[1, 2]`), new items `[9]`. -/
theorem setData_inplace_identity_witness :
    (((setDataFn exStore (.byIter [9]) false).slot = some 0 ∧
      (setDataFn exStore (.byIter [9]) false).heap 0 = [9]) ∧
    ((setDataFn exStore (.byIter [9]) true).heap 0 = exStore.heap 0 ∧
      (setDataFn exStore (.byIter [9]) true).slot = some exStore.next) ∧
    (∀ j, j ≠ 0 →
        (setDataFn exStore (.byRef j) false).slot = some 0 ∧
        (setDataFn exStore (.byRef j) false).heap 0 = exStore.heap j) ∧
    (∀ j, (setDataFn exStore (.byRef j) true).heap 0 = exStore.heap 0)) :=
  setData_inplace_identity exStore 0 rfl (by decide) [9]

/-- One attribute of a configuration object passed to the constructor: the
key may be missing, present with value `undefined`, present with a value of
the wrong type, or present with a well-typed value. -/
inductive FieldVal (A : Type) where
  | absent
  | undefVal
  | invalid
  | val (a : A)

/-- Whether the key is present on the object (the JavaScript `in` operator,
which also sees keys holding `undefined`). -/
def FieldVal.keyPresent {A : Type} : FieldVal A → Bool
  | .absent => false
  | _ => true

/-- A `DataDynArray` configuration object: possible `data`, `filters` and
`sort` attributes. -/
structure CtorCfg (T : Type) where
  dataF : FieldVal (List T)
  filtersF : FieldVal (List (T → Bool))
  sortF : FieldVal (T → T → Int)

/-- The `'data' in data || 'filters' in data || 'sort' in data` test of
DynArrayReducer.ts line 78. -/
def CtorCfg.hasAnyKey {T : Type} (c : CtorCfg T) : Bool :=
  c.dataF.keyPresent || c.filtersF.keyPresent || c.sortF.keyPresent

/-- The constructor's `data` argument: `undefined`, `null`, a non-object
non-iterable primitive, an iterable (array or other iterable whose contents
are the given list), or a non-iterable object treated as configuration. -/
inductive CtorArg (T : Type) where
  | undef
  | null
  | primNonIter
  | iter (isArray : Bool) (xs : List T)
  | obj (cfg : CtorCfg T)

/-- The state a successful construction installs: the backing store contents
(absent or a list), the pre-seeded filter list, and the pre-seeded
comparator. -/
structure CtorState (T : Type) where
  store : Option (List T)
  filters : List (T → Bool)
  sortFn : Option (T → T → Int)

/-- The `data` attribute contribution of a configuration object. -/
def FieldVal.optData {T : Type} : FieldVal (List T) → Option (List T)
  | .val xs => some xs
  | _ => none

/-- The `filters` attribute contribution of a configuration object. -/
def FieldVal.listOf {T : Type} : FieldVal (List (T → Bool)) → List (T → Bool)
  | .val l => l
  | _ => []

/-- The `sort` attribute contribution of a configuration object. -/
def FieldVal.optSort {T : Type} : FieldVal (T → T → Int) → Option (T → T → Int)
  | .val f => some f
  | _ => none

/-- Embedding of the `DynArrayReducer` constructor validation and ingestion
(DynArrayReducer.ts lines 56-133): `null` throws; a non-object non-iterable
throws; an iterable becomes the backing store; a non-iterable object is
scanned for `data`/`filters`/`sort` keys — wrongly-typed values throw,
well-typed ones are installed — and an object carrying none of those keys
falls through silently, leaving the store absent. -/
def ctorRun {T : Type} (arg : CtorArg T) : Except Unit (CtorState T) :=
  match arg with
  | .null => .error ()
  | .primNonIter => .error ()
  | .undef => .ok { store := none, filters := [], sortFn := none }
  | .iter _ xs => .ok { store := some xs, filters := [], sortFn := none }
  | .obj cfg =>
    if cfg.hasAnyKey then
      match cfg.dataF, cfg.filtersF, cfg.sortF with
      | .invalid, _, _ => .error ()
      | _, .invalid, _ => .error ()
      | _, _, .invalid => .error ()
      | dF, fF, sF => .ok { store := dF.optData, filters := fF.listOf, sortFn := sF.optSort }
    else .ok { store := none, filters := [], sortFn := none }

/-- The store produced by a construction result: `none` when construction
threw, otherwise the (possibly absent) backing store contents. -/
def ctorStore {T : Type} (r : Except Unit (CtorState T)) : Option (Option (List T)) :=
  match r with
  | .error _ => none
  | .ok s => some s.store

/-- C3 counterexample: a non-iterable object carrying none of the recognized
`data`/`filters`/`sort` keys is not a recognized configuration shape, yet
construction succeeds with an absent backing store instead of throwing. -/
theorem ctor_plain_object_counterexample :
    ctorStore (ctorRun (T := Nat)
        (.obj { dataF := .absent, filtersF := .absent, sortF := .absent })) = some none := by
  rfl

/-- C3 amended: construction throws for the `null` sentinel and for every
non-object non-iterable value; an iterable is accepted as the backing store;
a non-iterable object is accepted as configuration — a wrongly-typed `data`
attribute throws, while an object carrying none of the recognized keys
yields an absent backing store without throwing. -/
theorem ctor_validation {T : Type} (cfg : CtorCfg T) :
    ctorStore (ctorRun (T := T) .null) = none ∧
    ctorStore (ctorRun (T := T) .primNonIter) = none ∧
    (cfg.dataF = .invalid → ctorStore (ctorRun (.obj cfg)) = none) ∧
    (cfg.hasAnyKey = false → ctorStore (ctorRun (.obj cfg)) = some none) ∧
    (∀ (isArr : Bool) (xs : List T), ctorStore (ctorRun (.iter isArr xs)) = some (some xs)) ∧
    ctorStore (ctorRun (T := T) .undef) = some none := by
  refine ⟨rfl, rfl, ?_, ?_, fun _ _ => rfl, rfl⟩
  · intro hd
    have hkey : cfg.hasAnyKey = true := by
      simp [CtorCfg.hasAnyKey, hd, FieldVal.keyPresent]
    cases cfg with
    | mk dF fF sF =>
      cases hd
      cases fF <;> cases sF <;> simp [ctorRun, ctorStore, hkey]
  · intro hk
    simp [ctorRun, hk, ctorStore]

/-- Witness for C3 (amended) at a concrete configuration: a `data` attribute
of the wrong type throws; an object with no recognized keys succeeds with an
absent store. -/
theorem ctor_validation_witness :
    ctorStore (ctorRun (T := Nat) .null) = none ∧
    ctorStore (ctorRun (T := Nat) .primNonIter) = none ∧
    (({ dataF := .invalid, filtersF := .absent, sortF := .absent } : CtorCfg Nat).dataF =
        .invalid →
      ctorStore (ctorRun (.obj
        ({ dataF := .invalid, filtersF := .absent, sortF := .absent } : CtorCfg Nat))) = none) ∧
    (({ dataF := .invalid, filtersF := .absent, sortF := .absent } : CtorCfg Nat).hasAnyKey =
        false →
      ctorStore (ctorRun (.obj
        ({ dataF := .invalid, filtersF := .absent, sortF := .absent } : CtorCfg Nat))) =
        some none) ∧
    (∀ isArr xs, ctorStore (ctorRun (T := Nat) (.iter isArr xs)) = some (some xs)) ∧
    ctorStore (ctorRun (T := Nat) .undef) = some none :=
  ctor_validation { dataF := .invalid, filtersF := .absent, sortF := .absent }

/-- Embedding of `DynArrayReducer.subscribe` (DynArrayReducer.ts lines
261-273): the handler (identified by a numeric id, standing for function
identity) is pushed onto the subscriber list and invoked once with the view
before the unsubscribe function is returned; the pair holds the new
subscriber list and the sequence of handler invocations the call performs. -/
def subscribeFn (subs : List Nat) (h : Nat) : List Nat × List Nat :=
  (subs ++ [h], [h])

/-- Embedding of the unsubscribe closure returned by `subscribe`
(DynArrayReducer.ts lines 268-272): `findIndex` of the first entry equal to
the handler, then `splice` it out; when nothing matches the list is
unchanged. -/
def unsubFn (subs : List Nat) (h : Nat) : List Nat :=
  match subs.findIdx? (fun s => s == h) with
  | some i => subs.eraseIdx i
  | none => subs

/-- Embedding of `#updateSubscribers` (DynArrayReducer.ts lines 278-281):
every registered handler is invoked once, in subscription order; the result
is the invocation sequence. -/
def notifyFn (subs : List Nat) : List Nat := subs

/-- Unfolding of `unsubFn` on a cons cell. -/
theorem unsubFn_cons (a : Nat) (t : List Nat) (h : Nat) :
    unsubFn (a :: t) h = if a == h then t else a :: unsubFn t h := by
  unfold unsubFn
  rw [List.findIdx?_cons]
  by_cases hah : (a == h) = true
  · simp [hah]
  · rw [if_neg hah, if_neg hah, List.findIdx?_succ]
    cases hfi : t.findIdx? (fun s => s == h) with
    | none => simp
    | some i => simp [List.eraseIdx_cons_succ]

/-- The unsubscribe closure removes exactly the first occurrence of the
handler (it agrees with `List.erase`). -/
theorem unsubFn_eq_erase (subs : List Nat) (h : Nat) : unsubFn subs h = subs.erase h := by
  induction subs with
  | nil => rfl
  | cons a t ih => rw [unsubFn_cons, List.erase_cons, ih]

/-- C8: `subscribe` appends the handler to the subscriber list and invokes it
exactly once before returning; the returned unsubscribe function removes
exactly the first entry matching the handler by identity, and is a no-op
when the handler is no longer present. -/
theorem subscribe_spec (subs : List Nat) (h : Nat) :
    subscribeFn subs h = (subs ++ [h], [h]) ∧
    unsubFn (subs ++ [h]) h = subs.erase h ++ (if h ∈ subs then [h] else []) ∧
    (h ∉ subs → unsubFn (subs ++ [h]) h = subs) ∧
    (h ∉ subs → unsubFn subs h = subs) := by
  refine ⟨rfl, ?_, ?_, ?_⟩
  · rw [unsubFn_eq_erase]
    by_cases hmem : h ∈ subs
    · rw [if_pos hmem, List.erase_append_left _ hmem]
    · rw [if_neg hmem, List.erase_append_right _ hmem, List.erase_of_not_mem hmem]
      simp [List.erase_cons]
  · intro hmem
    rw [unsubFn_eq_erase, List.erase_append_right _ hmem]
    simp [List.erase_cons]
  · intro hmem
    rw [unsubFn_eq_erase, List.erase_of_not_mem hmem]

/-- Witness for C8 at a concrete input: subscribers `[4, 7]`, new handler 9. -/
theorem subscribe_spec_witness :
    subscribeFn [4, 7] 9 = ([4, 7] ++ [9], [9]) ∧
    unsubFn ([4, 7] ++ [9]) 9 = ([4, 7] : List Nat).erase 9 ++ (if 9 ∈ [4, 7] then [9] else []) ∧
    ((9 : Nat) ∉ [4, 7] → unsubFn ([4, 7] ++ [9]) 9 = [4, 7]) ∧
    ((9 : Nat) ∉ [4, 7] → unsubFn [4, 7] 9 = [4, 7]) :=
  subscribe_spec [4, 7] 9

/-- C10: subscribing the same handler twice registers it twice; a
notification then invokes it once per registration, in subscription order;
each call of the unsubscribe logic removes the first registration found by
identity, so running it twice removes both. -/
theorem subscribe_twice_spec (subs : List Nat) (h : Nat) (hnot : h ∉ subs) :
    (subscribeFn (subscribeFn subs h).1 h).1 = subs ++ [h, h] ∧
    notifyFn (subs ++ [h, h]) = subs ++ [h, h] ∧
    (notifyFn (subs ++ [h, h])).count h = 2 ∧
    unsubFn (unsubFn (subs ++ [h, h]) h) h = subs := by
  refine ⟨by simp [subscribeFn], rfl, ?_, ?_⟩
  · rw [notifyFn, List.count_append, List.count_eq_zero.mpr hnot]
    simp [List.count_cons]
  · rw [unsubFn_eq_erase, unsubFn_eq_erase, List.erase_append_right _ hnot,
      List.erase_cons_head, List.erase_append_right _ hnot, List.erase_cons_head,
      List.append_nil]

/-- Witness for C10 at a concrete input: subscribers `[4]`, handler 9
subscribed twice. -/
theorem subscribe_twice_spec_witness :
    (subscribeFn (subscribeFn [4] 9).1 9).1 = [4] ++ [9, 9] ∧
    notifyFn ([4] ++ [9, 9]) = [4] ++ [9, 9] ∧
    (notifyFn ([4] ++ [9, 9])).count 9 = 2 ∧
    unsubFn (unsubFn ([4] ++ [9, 9]) 9) 9 = [4] :=
  subscribe_twice_spec [4] 9 (by decide)

/-- The raw `data` argument of `setData` before validation: either a value
passing the `data !== null && !isIterable(data)` check or a non-iterable
non-null value that fails it. -/
inductive DataInp (T : Type) where
  | valid (d : SetArg T)
  | notIterable

/-- A JavaScript argument expected to be a boolean: an actual boolean or a
value of any other type. -/
inductive BoolInp where
  | bool (b : Bool)
  | nonBool

/-- Embedding of `setData` including its validation (DynArrayReducer.ts
lines 212-253): non-iterable non-null data throws, then a non-boolean
`replace` throws, both before any mutation; only afterwards is the store
mutated and `index.update(true)` run (the returned flag records that
subscribers are notified). -/
def setDataE {T : Type} (st : Store T) (d : DataInp T) (r : BoolInp) :
    Except Unit (Store T × Bool) :=
  match d with
  | .notIterable => .error ()
  | .valid d' =>
    match r with
    | .nonBool => .error ()
    | .bool b => .ok (setDataFn st d' b, true)

/-- Embedding of the `reversed` setter including its validation
(DynArrayReducer.ts lines 190-202): a non-boolean throws before the flag is
written; otherwise the flag is stored and `index.update(true)` notifies. -/
def reversedSetE (_cur : Bool) (r : BoolInp) : Except Unit (Bool × Bool) :=
  match r with
  | .nonBool => .error ()
  | .bool b => .ok (b, true)

/-- C9: the throwing operations (`setData` with non-iterable non-null data or
a non-boolean replace flag, and the `reversed` setter with a non-boolean)
fail synchronously with no mutated state and no notification — validation
precedes every mutation, so an error result carries no new store, no new
flag, and no notification; valid arguments conversely always mutate and
notify. -/
theorem failfast_validation {T : Type} (st : Store T) :
    (∀ r, setDataE st .notIterable r = .error ()) ∧
    (∀ d, setDataE st (.valid d) .nonBool = .error ()) ∧
    (∀ cur, reversedSetE cur .nonBool = .error ()) ∧
    (∀ d b, setDataE st (.valid d) (.bool b) = .ok (setDataFn st d b, true)) ∧
    (∀ cur b, reversedSetE cur (.bool b) = .ok (b, true)) :=
  ⟨fun _ => rfl, fun _ => rfl, fun _ => rfl, fun _ _ => rfl, fun _ _ => rfl⟩

end DynReducer
